import Mathlib

/-!
Verification of the iq-agent trading-environment core: a shallow embedding of
the wallet, environment state ledger, sensor buffers, event bus and the
deterministic backtest simulator (environment + runner replay loop), together
with proofs of the specified properties.

Conventions of the embedding:
* JavaScript numbers that hold money or quotes are modelled as `ℚ`;
  timestamps and period sizes as `Int`; counters and ids as `Nat`.
* Mutable classes become immutable records; each method is a function from the
  record (plus arguments) to the updated record.
* `Map` objects keyed by sensor-id strings become association lists.
* Asynchronous code in the source runs sequentially on a single logical
  thread (the backtest is fully synchronous), so `await` points disappear.
-/

set_option maxRecDepth 16000

namespace IQAgent

/-- Trade direction of a blitz option: `"call"` or `"put"`. -/
inductive Direction where
  | call
  | put
deriving DecidableEq

/-- Position status union type: `"open"` or `"closed"`. -/
inductive PStatus where
  | statusOpen
  | statusClosed
deriving DecidableEq

/-- A dataset/stream candle: `from`/`to` period bounds (renamed `cfrom`/`cto`
because `from` is a Lean keyword), OHLC quotes, volume, instrument id
(`active_id`) and period length in seconds (`size`). -/
structure Candle where
  cfrom : Int
  cto : Int
  copen : ℚ
  close : ℚ
  cmin : ℚ
  cmax : ℚ
  volume : ℚ
  active_id : Nat
  size : Nat
deriving DecidableEq

/-- A position as tracked by `EnvironmentState`; `close_*`/`pnl` fields default
to `0`/`""` while the position is still open (as `tradeToPosition` fills them). -/
structure Position where
  id : Nat
  active_id : Nat
  direction : Direction
  invest : ℚ
  open_quote : ℚ
  open_time : Int
  expiration_time : Int
  status : PStatus
  close_quote : ℚ
  close_reason : String
  close_time : Int
  pnl : ℚ
deriving DecidableEq

/-- A trade waiting for settlement inside the backtest simulator
(`src/backtest/types.ts`). -/
structure PendingTrade where
  id : Nat
  direction : Direction
  activeId : Nat
  invest : ℚ
  openQuote : ℚ
  openTime : Int
  expirationTime : Int
  expirationSize : Int
  profitPercent : ℚ
deriving DecidableEq

/-- The virtual wallet (`src/bot/infra/wallet.ts`): balance plus peak and
max-drawdown tracking.  The bust callback is modelled at the call sites
(`BacktestEnvironment.executeTrade` sets the runner's `busted` flag). -/
structure Wallet where
  balance : ℚ
  peak : ℚ
  maxDrawdown : ℚ
deriving DecidableEq

/-- `Wallet.canAfford`: the balance covers the amount. -/
abbrev Wallet.canAfford (w : Wallet) (amount : ℚ) : Prop := amount ≤ w.balance

/-- `Wallet.debit`: subtract, then update max drawdown. -/
def Wallet.debit (w : Wallet) (amount : ℚ) : Wallet :=
  let balance := w.balance - amount
  let dd := w.peak - balance
  { w with balance := balance,
           maxDrawdown := if dd > w.maxDrawdown then dd else w.maxDrawdown }

/-- `Wallet.credit`: add, then update peak. -/
def Wallet.credit (w : Wallet) (amount : ℚ) : Wallet :=
  let balance := w.balance + amount
  { w with balance := balance,
           peak := if balance > w.peak then balance else w.peak }

/-- Capacity of the recent-closed ring buffer in `EnvironmentState`. -/
def maxRecentClosed : Nat := 50

/-- The single state ledger (`src/env/state.ts`).  `availableAssets` is not
modelled (its content never feeds back into any verified behaviour). -/
structure EnvironmentState where
  balance : ℚ := 0
  openPositions : List Position := []
  closedCount : Nat := 0
  winCount : Nat := 0
  lossCount : Nat := 0
  totalPnl : ℚ := 0
  drawdown : ℚ := 0
  maxDrawdown : ℚ := 0
  peak : ℚ := 0
  streak : Int := 0
  recentClosed : List Position := []
  serverTime : Int := 0
deriving DecidableEq

/-- Replace the first position with the same id (source: write at
`findIndex` result). -/
def replaceById : List Position → Position → List Position
  | [], _ => []
  | p :: ps, pos => if p.id = pos.id then pos :: ps else p :: replaceById ps pos

/-- `EnvironmentState.onPositionChanged` from `src/env/state.ts`: upsert on an
open position; on a closed position remove it from the open set, bump
counters, classify win/loss by `close_reason`, update streak, peak, drawdown,
max drawdown and the recent-closed ring. -/
def EnvironmentState.onPositionChanged (s : EnvironmentState) (pos : Position) :
    EnvironmentState :=
  match pos.status with
  | .statusOpen =>
    if s.openPositions.any (fun p => p.id == pos.id) then
      { s with openPositions := replaceById s.openPositions pos }
    else
      { s with openPositions := s.openPositions ++ [pos] }
  | .statusClosed =>
    let s1 := { s with
      openPositions := s.openPositions.filter (fun p => p.id != pos.id),
      closedCount := s.closedCount + 1,
      totalPnl := s.totalPnl + pos.pnl }
    let s2 :=
      if pos.close_reason = "win" then
        { s1 with winCount := s1.winCount + 1,
                  streak := if s1.streak > 0 then s1.streak + 1 else 1 }
      else
        { s1 with lossCount := s1.lossCount + 1,
                  streak := if s1.streak < 0 then s1.streak - 1 else -1 }
    let peak := if s2.totalPnl > s2.peak then s2.totalPnl else s2.peak
    let drawdown := peak - s2.totalPnl
    let maxDD := if drawdown > s2.maxDrawdown then drawdown else s2.maxDrawdown
    let rc := s2.recentClosed ++ [pos]
    { s2 with peak := peak, drawdown := drawdown, maxDrawdown := maxDD,
              recentClosed := if rc.length > maxRecentClosed then rc.tail else rc }

/-! ### Sensor manager buffer primitives (`src/env/sensors.ts`) -/

namespace SensorManager

/-- Sensor id for a candle stream, `SensorManager.candleId`. -/
def candleId (activeId : Nat) (size : Nat) : String :=
  "candle:" ++ toString activeId ++ ":" ++ toString size

/-- `SensorManager.pushData`: append, then drop the oldest item if the buffer
exceeds `maxBufferSize`. -/
def pushData (maxBufferSize : Nat) (buffer : List α) (data : α) : List α :=
  let b := buffer ++ [data]
  if b.length > maxBufferSize then b.tail else b

/-- `SensorManager.pushCandle`: if the newest buffered candle has the same
`from`, replace it (mid-candle update); otherwise push like `pushData`. -/
def pushCandle (maxBufferSize : Nat) (buffer : List Candle) (candle : Candle) :
    List Candle :=
  match buffer.getLast? with
  | some last =>
    if last.cfrom = candle.cfrom then
      buffer.dropLast ++ [candle]
    else
      let b := buffer ++ [candle]
      if b.length > maxBufferSize then b.tail else b
  | none =>
    let b := buffer ++ [candle]
    if b.length > maxBufferSize then b.tail else b

/-- `SensorManager.prefill`: bulk push without update callbacks. -/
def prefill (maxBufferSize : Nat) (buffer : List α) (data : List α) : List α :=
  data.foldl (fun buf item => pushData maxBufferSize buf item) buffer

end SensorManager

/-- The `pushData` eviction check as it effectively runs in the live
`TradingEnvironment`, whose constructor passes the `AccountAPI` object as the
`maxBufferSize` argument of `new SensorManager(candles, trading,
subscriptions, account)`.  Modelled from JavaScript coercion semantics: the
relational comparison `buffer.length > maxBufferSize` converts the object
operand with `ToNumber`, which yields `NaN`, and every comparison against
`NaN` is `false` — so the shift branch is never taken. -/
def livePushCandle (buffer : List Candle) (candle : Candle) : List Candle :=
  match buffer.getLast? with
  | some last =>
    if last.cfrom = candle.cfrom then
      buffer.dropLast ++ [candle]
    else
      buffer ++ [candle]
  | none => buffer ++ [candle]

/-! ### Event bus (`src/events/bus.ts`) -/

/-- The event bus restricted to what reaches persistence.  Listener fan-out is
not modelled (no claim concerns it); `persistedLog` is the history of events
handed to the persist function, in call order. -/
structure EventBus (E : Type) where
  persistWired : Bool := false
  buffer : List E := []
  persistedLog : List E := []
deriving DecidableEq

/-- `EventBus.emit`: pass the event straight to the persist function if one is
wired, otherwise buffer it. -/
def EventBus.emit (b : EventBus E) (e : E) : EventBus E :=
  if b.persistWired then { b with persistedLog := b.persistedLog ++ [e] }
  else { b with buffer := b.buffer ++ [e] }

/-- `EventBus.setPersist`: wire persistence, flush the buffer to it in order,
then clear the buffer. -/
def EventBus.setPersistFn (b : EventBus E) : EventBus E :=
  { b with persistWired := true,
           persistedLog := b.persistedLog ++ b.buffer,
           buffer := [] }

/-- An operation performed on an event bus. -/
inductive BusOp (E : Type) where
  | emit (e : E)
  | wirePersist
deriving DecidableEq

/-- Run a sequence of bus operations. -/
def EventBus.runOps (b : EventBus E) : List (BusOp E) → EventBus E
  | [] => b
  | .emit e :: ops => (b.emit e).runOps ops
  | .wirePersist :: ops => b.setPersistFn.runOps ops

/-! ### Backtest simulator data model (`src/backtest/environment.ts`, `index.ts`) -/

/-- Sensor stream kinds. -/
inductive SensorType where
  | candle
  | mood
  | position
  | order
  | balance
deriving DecidableEq

/-- A sensor descriptor.  The source keeps `active_id`/`size` inside a
`params` record; they are inlined here (only candle sensors read them). -/
structure Sensor where
  id : String
  type : SensorType
  active_id : Nat
  size : Nat
deriving DecidableEq

/-- Payload of a `trade` action (`price` is the stake). -/
structure TradePayload where
  activeId : Nat
  direction : Direction
  price : ℚ
  expirationSize : Int
  profitPercent : Option ℚ
  currentPrice : Option ℚ
deriving DecidableEq

/-- Query methods dispatched by `BacktestEnvironment.executeQuery`; an
unrecognised method falls into the `default` branch (returns `undefined`). -/
inductive QueryMethod where
  | getPositions
  | getHistory
  | getBalances
  | getAssets
  | getTradersMood
  | getCandles (activeId : Nat) (size : Nat) (qfrom : Int) (qto : Int)
  | unknownMethod
deriving DecidableEq

/-- Values returned by `BacktestEnvironment.executeQuery` (callers in the
observation loop discard them, so only their shape matters). -/
inductive QueryResult where
  | positions (l : List Position)
  | history (l : List Position)
  | balances (amount : ℚ)
  | assets
  | mood (v : ℚ)
  | candles (l : List Candle)
  | undefinedResult
deriving DecidableEq

/-- Agent actions. -/
inductive Action where
  | trade (payload : TradePayload)
  | subscribe (sensor : Sensor)
  | unsubscribe (sensorId : String)
  | query (payload : QueryMethod)
deriving DecidableEq

/-- The `type` discriminator string of an action. -/
inductive ActionType where
  | trade
  | subscribe
  | unsubscribe
  | query
deriving DecidableEq

/-- `action.type`. -/
def Action.type : Action → ActionType
  | .trade _ => .trade
  | .subscribe _ => .subscribe
  | .unsubscribe _ => .unsubscribe
  | .query _ => .query

/-- One entry of the array returned by `executeActions`: the action's index
and type plus the caught error message, if the action threw (`result` values
are dropped by every caller and not tracked). -/
structure ActionResult where
  actionIndex : Nat
  type : ActionType
  error : Option String
deriving DecidableEq

/-- Events emitted on the run's event bus, restricted to the payload fields
the source fills in. -/
inductive BTEvent where
  | positionChanged (positionId : Nat) (status : PStatus) (activeId : Nat)
  | tradePlaced (activeId : Nat) (direction : Direction) (amount : ℚ) (expirationSize : Int)
  | walletChanged (balance : ℚ) (previousBalance : ℚ) (reason : String)
  | tradeClosed (positionId : Nat) (direction : Direction) (result : String) (pnl : ℚ) (invest : ℚ)
  | actionExecuted (actionType : ActionType)
  | actionFailed (actionType : ActionType) (error : String)
  | runStarted
  | runStopped (reason : String)
deriving DecidableEq

/-- Settlement outcome reported to the trade-resolved callback. -/
inductive TradeResult where
  | win
  | loss
  | tie
deriving DecidableEq

/-- One settled trade as recorded by the runner's `onTradeResolved`
callback. -/
structure ResolvedTrade where
  trade : PendingTrade
  result : TradeResult
  pnl : ℚ
  closePrice : ℚ
deriving DecidableEq

/-- What the agent observes: a copy of every sensor buffer, a state snapshot
and the simulated time. -/
structure Observation where
  sensors : List (String × List Candle)
  state : EnvironmentState
  timestamp : Int

/-- An agent with internal state `σ`: `initActions` are the actions its
`initialize` hook executes through the environment, `onObservation` maps an
observation to follow-up actions, `onTradeResult` consumes each closed
position.  Agents are deterministic functions of their state and inputs. -/
structure Agent (σ : Type) where
  name : String
  init : σ
  initActions : List Action
  onObservation : σ → Observation → σ × List Action
  onTradeResult : σ → Position → σ

/-- Whole-simulation state: the `BacktestEnvironment` fields plus the wallet,
the agent's internal state, the runner's `busted` flag (and whether the bust
callback has been wired yet), the emitted events, the runner's resolved-trade
record, and `obsLog` — a write-only history variable, not present in the
source, recording for each agent observation the candle that triggered it and
the pending trades outstanding at that moment (used to state temporal
properties; no behaviour reads it). -/
structure BTState (σ : Type) where
  agentState : σ
  wallet : Wallet
  bustWired : Bool
  busted : Bool
  envState : EnvironmentState
  sensorBuffers : List (String × List Candle)
  subscribedSensors : List Sensor
  pendingTrades : List PendingTrade
  currentTime : Int
  nextPositionId : Nat
  allCandles : List Candle
  payoutPercent : ℚ
  events : List BTEvent
  resolved : List ResolvedTrade
  obsLog : List (Candle × List PendingTrade)
deriving DecidableEq

/-! Association-list operations standing in for the `Map` of sensor buffers. -/

/-- Lookup (`Map.get`). -/
def alGet (m : List (String × List Candle)) (k : String) : Option (List Candle) :=
  (m.find? (fun kv => kv.1 == k)).map (fun kv => kv.2)

/-- Insert-or-replace (`Map.set`): replace the value in place if the key is
present, else append the new entry. -/
def alSet : List (String × List Candle) → String → List Candle →
    List (String × List Candle)
  | [], k, v => [(k, v)]
  | kv :: m, k, v => if kv.1 == k then (k, v) :: m else kv :: alSet m k v

/-- Removal (`Map.delete`). -/
def alDelete (m : List (String × List Candle)) (k : String) :
    List (String × List Candle) :=
  m.filter (fun kv => kv.1 != k)

namespace BacktestEnvironment

/-- `maxBufferSize` of the backtest environment ("[FIX M1] Match live
SensorManager default"). -/
def maxBufferSize : Nat := 100

/-- `getLatestClose`: close of the newest candle of the instrument at or
before the current simulated time (the source scans `allCandles` backwards). -/
def getLatestClose (allCandles : List Candle) (currentTime : Int) (activeId : Nat) :
    Option ℚ :=
  (allCandles.reverse.find?
    (fun c => c.active_id == activeId && decide (c.cfrom ≤ currentTime))).map
    (fun c => c.close)

/-- `findLastCandleForAsset`: the last dataset candle of the instrument, if
any (backwards scan). -/
def findLastCandleForAsset (allCandles : List Candle) (activeId : Nat) :
    Option Candle :=
  allCandles.reverse.find? (fun c => c.active_id == activeId)

/-- `tradeToPosition`: view a pending trade as a Position, optionally filled
with close data `(closePrice, closeReason, pnl)`. -/
def tradeToPosition (currentTime : Int) (trade : PendingTrade) (status : PStatus)
    (closeInfo : Option (ℚ × String × ℚ)) : Position :=
  { id := trade.id
    active_id := trade.activeId
    direction := trade.direction
    invest := trade.invest
    open_quote := trade.openQuote
    open_time := trade.openTime
    expiration_time := trade.expirationTime
    status := status
    close_quote := (closeInfo.map (fun ci => ci.1)).getD 0
    close_reason := (closeInfo.map (fun ci => ci.2.1)).getD ""
    close_time := if closeInfo.isSome then currentTime else 0
    pnl := (closeInfo.map (fun ci => ci.2.2)).getD 0 }

/-- Tie test of `resolveTradeAtPrice`: `closePrice === trade.openQuote`. -/
def tradeIsTie (trade : PendingTrade) (closePrice : ℚ) : Bool :=
  decide (closePrice = trade.openQuote)

/-- Win test of `resolveTradeAtPrice`: not a tie, and the quote moved in the
trade's direction. -/
def tradeIsWin (trade : PendingTrade) (closePrice : ℚ) : Bool :=
  !tradeIsTie trade closePrice &&
    ((decide (trade.direction = .call) && decide (trade.openQuote < closePrice)) ||
     (decide (trade.direction = .put) && decide (closePrice < trade.openQuote)))

/-- PnL assigned at settlement: `0` on a tie, `invest * profitPercent / 100`
on a win, `-invest` on a loss. -/
def tradePnl (trade : PendingTrade) (closePrice : ℚ) : ℚ :=
  if tradeIsTie trade closePrice then 0
  else if tradeIsWin trade closePrice then trade.invest * (trade.profitPercent / 100)
  else -trade.invest

/-- Settlement outcome. -/
def tradeOutcome (trade : PendingTrade) (closePrice : ℚ) : TradeResult :=
  if tradeIsTie trade closePrice then .tie
  else if tradeIsWin trade closePrice then .win
  else .loss

/-- `closeReason` string written into the closed position. -/
def closeReasonStr : TradeResult → String
  | .win => "win"
  | .loss => "loss"
  | .tie => "tie"

/-- The record the runner's trade-resolved callback receives for one
settlement. -/
def resolutionOf (trade : PendingTrade) (closePrice : ℚ) : ResolvedTrade :=
  { trade := trade
    result := tradeOutcome trade closePrice
    pnl := tradePnl trade closePrice
    closePrice := closePrice }

/-- `resolveTradeAtPrice`: classify tie/win/loss, credit the wallet (refund on
tie, stake plus profit on win, nothing on loss), sync `state.balance`, feed
the closed position into `onPositionChanged`, emit `position:changed` and
`trade:closed` (and `wallet:changed` unless tie; the events schema only
supports win/loss so a tie is reported as "loss" there), append to the
runner's resolved record, and hand the closed position to the agent's
`onTradeResult`. -/
def resolveTradeAtPrice (ag : Agent σ) (st : BTState σ) (trade : PendingTrade)
    (closePrice : ℚ) : BTState σ :=
  let res := resolutionOf trade closePrice
  let isTie := tradeIsTie trade closePrice
  let isWin := tradeIsWin trade closePrice
  let wallet :=
    if isTie then st.wallet.credit trade.invest
    else if isWin then st.wallet.credit (trade.invest + trade.invest * (trade.profitPercent / 100))
    else st.wallet
  let closedPos := tradeToPosition st.currentTime trade .statusClosed
    (some (closePrice, closeReasonStr res.result, res.pnl))
  let env1 := { st.envState with balance := wallet.balance }
  let env2 := env1.onPositionChanged closedPos
  let walletEvents : List BTEvent :=
    if isTie then []
    else
      [.walletChanged wallet.balance
        (if isWin then wallet.balance - trade.invest - res.pnl else wallet.balance)
        (if isWin then "trade:win" else "trade:loss")]
  { st with
    wallet := wallet
    envState := env2
    events := st.events ++
      [.positionChanged trade.id .statusClosed trade.activeId,
       .tradeClosed trade.id trade.direction (if isTie then "loss" else if isWin then "win" else "loss")
         res.pnl trade.invest] ++ walletEvents
    resolved := st.resolved ++ [res]
    agentState := ag.onTradeResult st.agentState closedPos }

/-- `resolveTrade`: settle at the close of the first dataset candle of the
instrument at or after expiration; with none found ("[FIX C6]"), fall back to
the instrument's last known close, then to the trade's own open quote. -/
def resolveTrade (ag : Agent σ) (st : BTState σ) (trade : PendingTrade) : BTState σ :=
  match st.allCandles.find?
      (fun c => c.active_id == trade.activeId && decide (trade.expirationTime ≤ c.cfrom)) with
  | some expirationCandle => resolveTradeAtPrice ag st trade expirationCandle.close
  | none =>
    match findLastCandleForAsset st.allCandles trade.activeId with
    | some lastKnown => resolveTradeAtPrice ag st trade lastKnown.close
    | none => resolveTradeAtPrice ag st trade trade.openQuote

/-- `checkExpirations`: split the pending list into due (expiration at or
before the simulated clock) and remaining, keep the remaining, then resolve
each due trade in order. -/
def checkExpirations (ag : Agent σ) (st : BTState σ) : BTState σ :=
  let toClose := st.pendingTrades.filter
    (fun t => decide (t.expirationTime ≤ st.currentTime))
  let remaining := st.pendingTrades.filter
    (fun t => !decide (t.expirationTime ≤ st.currentTime))
  toClose.foldl (resolveTrade ag) { st with pendingTrades := remaining }

/-- The price `forceCloseAll` settles one trade at: the instrument's last
known close, or the supplied last price if the instrument has no candles
("[FIX M7]"). -/
def forceClosePrice (allCandles : List Candle) (lastPrice : ℚ)
    (trade : PendingTrade) : ℚ :=
  match findLastCandleForAsset allCandles trade.activeId with
  | some lastAssetCandle => lastAssetCandle.close
  | none => lastPrice

/-- One iteration of `forceCloseAll`'s loop. -/
def forceCloseStep (ag : Agent σ) (lastPrice : ℚ) (acc : BTState σ)
    (trade : PendingTrade) : BTState σ :=
  resolveTradeAtPrice ag acc trade (forceClosePrice acc.allCandles lastPrice trade)

/-- `forceCloseAll`: take the pending trades, clear the pending list, then
resolve each one at its force-close price. -/
def forceCloseAll (ag : Agent σ) (st : BTState σ) (lastPrice : ℚ) : BTState σ :=
  st.pendingTrades.foldl (forceCloseStep ag lastPrice)
    { st with pendingTrades := [] }

/-- The `PendingTrade` literal `executeTrade` builds: stake from the payload
price, open quote from the caller-supplied current price (else the latest
known close, else `0`), expiration at the current simulated time plus the
expiration size, profit percent from the payload (else the environment
default), id from the position counter. -/
def mkPendingTrade (st : BTState σ) (payload : TradePayload) : PendingTrade :=
  { id := st.nextPositionId
    direction := payload.direction
    activeId := payload.activeId
    invest := payload.price
    openQuote := ((payload.currentPrice.orElse
      (fun _ => getLatestClose st.allCandles st.currentTime payload.activeId)).getD 0)
    openTime := st.currentTime
    expirationTime := st.currentTime + payload.expirationSize
    expirationSize := payload.expirationSize
    profitPercent := payload.profitPercent.getD st.payoutPercent }

/-- `executeTrade`: reject when the wallet cannot cover the stake; otherwise
debit immediately (raising the runner's `busted` flag when the balance drops
to `0` or below and the bust callback is wired), create the `PendingTrade`
(open quote from the caller-supplied current price, else the latest known
close, else `0`; profit percent from the payload, else the environment
default), feed the synthesized open position into the state, and emit
`position:changed`, `trade:placed` and `wallet:changed` ("[FIX M2]"). -/
def executeTrade (st : BTState σ) (payload : TradePayload) :
    BTState σ × Option String :=
  let invest := payload.price
  if ¬ st.wallet.canAfford invest then
    (st, some "Cannot afford trade")
  else
    let previousBalance := st.wallet.balance
    let wallet := st.wallet.debit invest
    let busted := st.busted || (st.bustWired && decide (wallet.balance ≤ 0))
    let id := st.nextPositionId
    let trade := mkPendingTrade st payload
    let openPos := tradeToPosition st.currentTime trade .statusOpen none
    let env1 := { st.envState with balance := wallet.balance }
    ({ st with
       wallet := wallet
       busted := busted
       envState := env1.onPositionChanged openPos
       pendingTrades := st.pendingTrades ++ [trade]
       nextPositionId := id + 1
       events := st.events ++
         [.positionChanged id .statusOpen payload.activeId,
          .tradePlaced payload.activeId payload.direction invest payload.expirationSize,
          .walletChanged wallet.balance previousBalance "trade:open"] }, none)

/-- `executeSubscribe`: no-op if already subscribed; otherwise register the
sensor, create its buffer if absent, and for candle sensors pre-fill the
buffer with the last `maxBufferSize` dataset candles strictly before the
simulated time.  Non-candle sensors are not simulated (a warning is logged
and the buffer stays empty). -/
def executeSubscribe (st : BTState σ) (sensor : Sensor) : BTState σ :=
  if st.subscribedSensors.any (fun s => s.id == sensor.id) then st
  else
    let st1 := { st with subscribedSensors := st.subscribedSensors ++ [sensor] }
    let st2 :=
      if (alGet st1.sensorBuffers sensor.id).isSome then st1
      else { st1 with sensorBuffers := alSet st1.sensorBuffers sensor.id [] }
    if sensor.type = SensorType.candle then
      let buffer := (alGet st2.sensorBuffers sensor.id).getD []
      let historical := st2.allCandles.filter
        (fun c => c.active_id == sensor.active_id && c.size == sensor.size &&
          decide (c.cfrom < st2.currentTime))
      let toFill := historical.drop (historical.length - maxBufferSize)
      { st2 with sensorBuffers := alSet st2.sensorBuffers sensor.id (buffer ++ toFill) }
    else st2

/-- `executeUnsubscribe`: drop both the registration and the buffer. -/
def executeUnsubscribe (st : BTState σ) (sensorId : String) : BTState σ :=
  { st with
    subscribedSensors := st.subscribedSensors.filter (fun s => s.id != sensorId),
    sensorBuffers := alDelete st.sensorBuffers sensorId }

/-- `executeQuery`: in-memory answers derived from state and dataset; the
`default` branch returns `undefined` without throwing. -/
def executeQuery (st : BTState σ) (q : QueryMethod) : QueryResult :=
  match q with
  | .getPositions => .positions st.envState.openPositions
  | .getHistory => .history st.envState.recentClosed
  | .getBalances => .balances st.envState.balance
  | .getAssets => .assets
  | .getTradersMood => .mood ((1 : ℚ) / 2)
  | .getCandles a s f t => .candles (st.allCandles.filter
      (fun c => c.active_id == a && c.size == s &&
        decide (f ≤ c.cfrom) && decide (c.cfrom ≤ t)))
  | .unknownMethod => .undefinedResult

/-- `executeAction`: dispatch on the action type; the returned `Option String`
is the caught error, if any (only a trade can throw in the backtest). -/
def executeAction (st : BTState σ) (action : Action) : BTState σ × Option String :=
  match action with
  | .trade payload => executeTrade st payload
  | .subscribe sensor => (executeSubscribe st sensor, none)
  | .unsubscribe sensorId => (executeUnsubscribe st sensorId, none)
  | .query q =>
    let _ := executeQuery st q
    (st, none)

/-- The indexed loop of `executeActions`: try each action, record
`{actionIndex, type, result | error}` and emit `action:executed` or
`action:failed`, then continue with the rest of the batch. -/
def executeActionsFrom : BTState σ → Nat → List Action → BTState σ × List ActionResult
  | st, _, [] => (st, [])
  | st, i, action :: rest =>
    let r := executeAction st action
    let st2 :=
      match r.2 with
      | none => { r.1 with events := r.1.events ++ [.actionExecuted action.type] }
      | some msg => { r.1 with events := r.1.events ++ [.actionFailed action.type msg] }
    let p := executeActionsFrom st2 (i + 1) rest
    (p.1, ({ actionIndex := i, type := action.type, error := r.2 } : ActionResult) :: p.2)

/-- `executeActions`. -/
def executeActions (st : BTState σ) (actions : List Action) :
    BTState σ × List ActionResult :=
  executeActionsFrom st 0 actions

/-- `getObservation`: copies of the sensor buffers, a state snapshot and the
simulated time (copying is the identity in this pure embedding). -/
def getObservation (st : BTState σ) : Observation :=
  { sensors := st.sensorBuffers, state := st.envState, timestamp := st.currentTime }

/-- The single update callback registered by `runAgent`: observe, ask the
agent, and execute any returned actions. -/
def runUpdateCallback (ag : Agent σ) (st : BTState σ) : BTState σ :=
  let r := ag.onObservation st.agentState (getObservation st)
  let st1 := { st with agentState := r.1 }
  if r.2.isEmpty then st1 else (executeActions st1 r.2).1

/-- The buffer mutation of `feedCandle` ("Same logic as
`SensorManager.pushCandle` — replace if same `from`, else append", with the
append bounded by `maxBufferSize`). -/
def feedBuffer (buffer : List Candle) (candle : Candle) : List Candle :=
  match buffer.getLast? with
  | some last =>
    if last.cfrom = candle.cfrom then buffer.dropLast ++ [candle]
    else
      let b := buffer ++ [candle]
      if b.length > maxBufferSize then b.tail else b
  | none =>
    let b := buffer ++ [candle]
    if b.length > maxBufferSize then b.tail else b

/-- `feedCandle`: nothing happens without a matching sensor buffer; otherwise
update the buffer and run the update callback (which observes the updated
buffers).  The ghost `obsLog` records the observation trigger together with
the pending trades outstanding at that instant. -/
def feedCandle (ag : Agent σ) (st : BTState σ) (candle : Candle) : BTState σ :=
  match alGet st.sensorBuffers (SensorManager.candleId candle.active_id candle.size) with
  | none => st
  | some buffer =>
    runUpdateCallback ag
      { st with
        sensorBuffers := alSet st.sensorBuffers
          (SensorManager.candleId candle.active_id candle.size)
          (feedBuffer buffer candle),
        obsLog := st.obsLog ++ [(candle, st.pendingTrades)] }

/-- `setCurrentTime`: advance the simulated clock (also mirrored into
`state.serverTime`). -/
def setCurrentTime (st : BTState σ) (ts : Int) : BTState σ :=
  { st with currentTime := ts, envState := { st.envState with serverTime := ts } }

/-- One iteration of the runner's replay loop (`BacktestRunner.run`, step 9):
skip everything once `busted` is set (the source `break`s; as `busted` is
never reset the skip is equivalent), else advance the clock to the candle's
period start, settle due expirations, then feed the candle. -/
def stepCandle (ag : Agent σ) (st : BTState σ) (candle : Candle) : BTState σ :=
  if st.busted then st
  else feedCandle ag (checkExpirations ag (setCurrentTime st candle.cfrom)) candle

end BacktestEnvironment

/-- Insert a candle into a chronologically sorted list, before any
later-keyed candle and after equal-keyed ones already present. -/
def insertCandle (c : Candle) : List Candle → List Candle
  | [] => [c]
  | x :: xs => if x.cfrom < c.cfrom then x :: insertCandle c xs else c :: x :: xs

/-- Stable chronological sort of the loaded dataset, modelling
`allCandles.sort((a, b) => a.from - b.from)`. -/
def sortCandles : List Candle → List Candle
  | [] => []
  | c :: cs => insertCandle c (sortCandles cs)

/-- The run id built by `BacktestRunner.run`:
`bt-<agent>-<yyyymmdd date stamp from Date.now>-<Math.random suffix>`.  The
date stamp and random suffix are the run's only wall-clock/random inputs. -/
def mkRunId (agentName : String) (dateStamp : String) (rand : String) : String :=
  "bt-" ++ agentName ++ "-" ++ dateStamp ++ "-" ++ rand

namespace BacktestRunner

open BacktestEnvironment

/-- The state `BacktestRunner.run` builds before replaying (steps 2–7):
fresh wallet, fresh environment over the sorted dataset, `run:started`
emitted, bust callback not yet wired. -/
def initState (ag : Agent σ) (allCandles : List Candle)
    (initialBalance payoutPercent : ℚ) : BTState σ :=
  { agentState := ag.init
    wallet := { balance := initialBalance, peak := initialBalance, maxDrawdown := 0 }
    bustWired := false
    busted := false
    envState := { balance := initialBalance }
    sensorBuffers := []
    subscribedSensors := []
    pendingTrades := []
    currentTime := 0
    nextPositionId := 1
    allCandles := allCandles
    payoutPercent := payoutPercent
    events := [.runStarted]
    resolved := []
    obsLog := [] }

/-- Steps 8–9 head of `BacktestRunner.run`: set the clock to the first
candle's period start (so subscription prefill works), run the agent's
initialize-time actions, then wire the bust callback. -/
def runPrelude (ag : Agent σ) (first : Candle) (rest : List Candle)
    (initialBalance payoutPercent : ℚ) : BTState σ :=
  { (BacktestEnvironment.executeActions
      (BacktestEnvironment.setCurrentTime
        (initState ag (first :: rest) initialBalance payoutPercent) first.cfrom)
      ag.initActions).1 with bustWired := true }

/-- `BacktestRunner.run` on a sorted, non-empty dataset: replay every candle
through `stepCandle`, force-close the remaining pending trades at the last
candle's close, and emit `run:stopped`. -/
def runOnSorted (ag : Agent σ) (first : Candle) (rest : List Candle)
    (initialBalance payoutPercent : ℚ) : BTState σ :=
  let st4 := (first :: rest).foldl (BacktestEnvironment.stepCandle ag)
    (runPrelude ag first rest initialBalance payoutPercent)
  let st5 := BacktestEnvironment.forceCloseAll ag st4
    ((first :: rest).getLast (by simp)).close
  { st5 with
    events := st5.events ++
      [.runStopped (if st5.busted then "bust" else "complete")] }

/-- `BacktestRunner.run` up to its final state (`none` when the dataset is
empty, where the source throws): sort the candles chronologically, then run
the prelude, the replay loop and the forced close. -/
def runBacktestState (ag : Agent σ) (candles : List Candle)
    (initialBalance payoutPercent : ℚ) : Option (BTState σ) :=
  match sortCandles candles with
  | [] => none
  | first :: rest => some (runOnSorted ag first rest initialBalance payoutPercent)

/-- The summary a backtest run returns to its caller (restricted to the
fields the claims mention). -/
structure RunResult where
  runId : String
  trades : List ResolvedTrade
  finalBalance : ℚ
deriving DecidableEq

/-- `BacktestRunner.run`: the final state projected to its outward result,
with the run id built from the wall-clock date stamp and the random
suffix. -/
def runBacktest (ag : Agent σ) (candles : List Candle)
    (initialBalance payoutPercent : ℚ) (dateStamp rand : String) :
    Option RunResult :=
  (runBacktestState ag candles initialBalance payoutPercent).map
    (fun st => { runId := mkRunId ag.name dateStamp rand,
                 trades := st.resolved,
                 finalBalance := st.wallet.balance })

end BacktestRunner

/-! ### Helper lemmas -/

/-- A fresh event bus (constructor state). -/
def EventBus.new : EventBus E := {}

theorem runOps_emits_unwired (es : List E) (b : EventBus E)
    (h : b.persistWired = false) :
    b.runOps (es.map BusOp.emit) = { b with buffer := b.buffer ++ es } := by
  induction es generalizing b with
  | nil => simp [EventBus.runOps]
  | cons e es ih =>
    simp only [List.map_cons, EventBus.runOps, EventBus.emit, h, if_false,
      Bool.false_eq_true]
    rw [ih _ (by simp [h])]
    simp

theorem runOps_emits_wired (es : List E) (b : EventBus E)
    (h : b.persistWired = true) :
    b.runOps (es.map BusOp.emit) = { b with persistedLog := b.persistedLog ++ es } := by
  induction es generalizing b with
  | nil => simp [EventBus.runOps]
  | cons e es ih =>
    simp only [List.map_cons, EventBus.runOps, EventBus.emit, h, if_true]
    rw [ih _ (by simp [h])]
    simp

theorem runOps_append (ops1 ops2 : List (BusOp E)) (b : EventBus E) :
    b.runOps (ops1 ++ ops2) = (b.runOps ops1).runOps ops2 := by
  induction ops1 generalizing b with
  | nil => simp [EventBus.runOps]
  | cons op ops ih =>
    cases op <;> simp [EventBus.runOps, ih]

namespace BacktestEnvironment

theorem resolveTradeAtPrice_pendingTrades (ag : Agent σ) (st : BTState σ)
    (t : PendingTrade) (c : ℚ) :
    (resolveTradeAtPrice ag st t c).pendingTrades = st.pendingTrades := rfl

theorem resolveTradeAtPrice_currentTime (ag : Agent σ) (st : BTState σ)
    (t : PendingTrade) (c : ℚ) :
    (resolveTradeAtPrice ag st t c).currentTime = st.currentTime := rfl

theorem resolveTradeAtPrice_allCandles (ag : Agent σ) (st : BTState σ)
    (t : PendingTrade) (c : ℚ) :
    (resolveTradeAtPrice ag st t c).allCandles = st.allCandles := rfl

theorem resolveTradeAtPrice_obsLog (ag : Agent σ) (st : BTState σ)
    (t : PendingTrade) (c : ℚ) :
    (resolveTradeAtPrice ag st t c).obsLog = st.obsLog := rfl

theorem resolveTradeAtPrice_resolved (ag : Agent σ) (st : BTState σ)
    (t : PendingTrade) (c : ℚ) :
    (resolveTradeAtPrice ag st t c).resolved = st.resolved ++ [resolutionOf t c] := rfl

theorem resolveTradeAtPrice_wallet_tie (ag : Agent σ) (st : BTState σ)
    (t : PendingTrade) (c : ℚ) (h : tradeIsTie t c = true) :
    (resolveTradeAtPrice ag st t c).wallet = st.wallet.credit t.invest := by
  simp only [resolveTradeAtPrice, h, if_true]

theorem resolveTrade_preserves (ag : Agent σ) (st : BTState σ) (t : PendingTrade) :
    (resolveTrade ag st t).pendingTrades = st.pendingTrades ∧
    (resolveTrade ag st t).currentTime = st.currentTime ∧
    (resolveTrade ag st t).allCandles = st.allCandles ∧
    (resolveTrade ag st t).obsLog = st.obsLog := by
  unfold resolveTrade
  cases st.allCandles.find?
      (fun c => c.active_id == t.activeId && decide (t.expirationTime ≤ c.cfrom)) with
  | some c => exact ⟨rfl, rfl, rfl, rfl⟩
  | none =>
    cases findLastCandleForAsset st.allCandles t.activeId with
    | some c => exact ⟨rfl, rfl, rfl, rfl⟩
    | none => exact ⟨rfl, rfl, rfl, rfl⟩

theorem foldl_resolveTrade_preserves (ag : Agent σ) (l : List PendingTrade)
    (st : BTState σ) :
    (l.foldl (resolveTrade ag) st).pendingTrades = st.pendingTrades ∧
    (l.foldl (resolveTrade ag) st).currentTime = st.currentTime ∧
    (l.foldl (resolveTrade ag) st).allCandles = st.allCandles ∧
    (l.foldl (resolveTrade ag) st).obsLog = st.obsLog := by
  induction l generalizing st with
  | nil => exact ⟨rfl, rfl, rfl, rfl⟩
  | cons t ts ih =>
    simp only [List.foldl_cons]
    obtain ⟨h1, h2, h3, h4⟩ := ih (resolveTrade ag st t)
    obtain ⟨g1, g2, g3, g4⟩ := resolveTrade_preserves ag st t
    exact ⟨h1.trans g1, h2.trans g2, h3.trans g3, h4.trans g4⟩

theorem checkExpirations_pendingTrades (ag : Agent σ) (st : BTState σ) :
    (checkExpirations ag st).pendingTrades
      = st.pendingTrades.filter (fun t => !decide (t.expirationTime ≤ st.currentTime)) := by
  unfold checkExpirations
  exact (foldl_resolveTrade_preserves ag _ _).1

theorem checkExpirations_currentTime (ag : Agent σ) (st : BTState σ) :
    (checkExpirations ag st).currentTime = st.currentTime := by
  unfold checkExpirations
  exact (foldl_resolveTrade_preserves ag _ _).2.1

theorem checkExpirations_obsLog (ag : Agent σ) (st : BTState σ) :
    (checkExpirations ag st).obsLog = st.obsLog := by
  unfold checkExpirations
  exact (foldl_resolveTrade_preserves ag _ _).2.2.2

theorem executeTrade_obsLog (st : BTState σ) (p : TradePayload) :
    (executeTrade st p).1.obsLog = st.obsLog := by
  unfold executeTrade
  dsimp only
  split <;> rfl

theorem executeSubscribe_obsLog (st : BTState σ) (s : Sensor) :
    (executeSubscribe st s).obsLog = st.obsLog := by
  unfold executeSubscribe
  dsimp only
  split
  · rfl
  · split <;> split <;> rfl

theorem executeAction_obsLog (st : BTState σ) (a : Action) :
    (executeAction st a).1.obsLog = st.obsLog := by
  cases a with
  | trade p => exact executeTrade_obsLog st p
  | subscribe s => exact executeSubscribe_obsLog st s
  | unsubscribe sid => rfl
  | query q => rfl

theorem executeActionsFrom_obsLog (as : List Action) (st : BTState σ) (i : Nat) :
    (executeActionsFrom st i as).1.obsLog = st.obsLog := by
  induction as generalizing st i with
  | nil => rfl
  | cons a rest ih =>
    simp only [executeActionsFrom]
    cases h : (executeAction st a).2 with
    | none =>
      simp only [h]
      exact (ih _ _).trans (executeAction_obsLog st a)
    | some msg =>
      simp only [h]
      exact (ih _ _).trans (executeAction_obsLog st a)

theorem runUpdateCallback_obsLog (ag : Agent σ) (st : BTState σ) :
    (runUpdateCallback ag st).obsLog = st.obsLog := by
  unfold runUpdateCallback
  dsimp only
  split
  · rfl
  · exact executeActionsFrom_obsLog _ _ _

theorem feedCandle_obsLog_mem (ag : Agent σ) (st : BTState σ) (c : Candle)
    (e : Candle × List PendingTrade) (he : e ∈ (feedCandle ag st c).obsLog) :
    e ∈ st.obsLog ∨ e = (c, st.pendingTrades) := by
  unfold feedCandle at he
  cases h : alGet st.sensorBuffers (SensorManager.candleId c.active_id c.size) with
  | none =>
    rw [h] at he
    exact Or.inl he
  | some buffer =>
    rw [h] at he
    rw [runUpdateCallback_obsLog] at he
    simp only [List.mem_append, List.mem_singleton] at he
    exact he

theorem foldl_forceCloseStep_preserves (ag : Agent σ) (lastPrice : ℚ)
    (l : List PendingTrade) (st : BTState σ) :
    (l.foldl (forceCloseStep ag lastPrice) st).obsLog = st.obsLog ∧
    (l.foldl (forceCloseStep ag lastPrice) st).allCandles = st.allCandles ∧
    (l.foldl (forceCloseStep ag lastPrice) st).pendingTrades = st.pendingTrades ∧
    (l.foldl (forceCloseStep ag lastPrice) st).resolved
      = st.resolved ++ l.map (fun t => resolutionOf t (forceClosePrice st.allCandles lastPrice t)) := by
  induction l generalizing st with
  | nil => simp
  | cons t ts ih =>
    simp only [List.foldl_cons, List.map_cons]
    obtain ⟨h1, h2, h3, h4⟩ := ih (forceCloseStep ag lastPrice st t)
    unfold forceCloseStep at *
    refine ⟨h1.trans (resolveTradeAtPrice_obsLog ..),
      h2.trans (resolveTradeAtPrice_allCandles ..),
      h3.trans (resolveTradeAtPrice_pendingTrades ..), ?_⟩
    rw [h4, resolveTradeAtPrice_resolved, resolveTradeAtPrice_allCandles]
    simp

theorem forceCloseAll_obsLog (ag : Agent σ) (st : BTState σ) (lastPrice : ℚ) :
    (forceCloseAll ag st lastPrice).obsLog = st.obsLog := by
  unfold forceCloseAll
  exact (foldl_forceCloseStep_preserves ag lastPrice st.pendingTrades _).1

end BacktestEnvironment

theorem alGet_alSet (m : List (String × List Candle)) (k : String) (v : List Candle) :
    alGet (alSet m k v) k = some v := by
  induction m with
  | nil => simp [alGet, alSet, List.find?]
  | cons kv m ih =>
    by_cases h : kv.1 == k
    · simp [alSet, alGet, List.find?, h]
    · simpa [alSet, alGet, List.find?, h] using ih

/-- A do-nothing agent used to state environment facts that do not depend on
agent behaviour. -/
def noopAgent : Agent Unit :=
  { name := "noop"
    init := ()
    initActions := []
    onObservation := fun s _ => (s, [])
    onTradeResult := fun s _ => s }

/-- A generic small simulation state used as the concrete input of witnesses. -/
def blankState : BTState Unit :=
  { agentState := ()
    wallet := { balance := 1000, peak := 1000, maxDrawdown := 0 }
    bustWired := true
    busted := false
    envState := { balance := 1000 }
    sensorBuffers := []
    subscribedSensors := []
    pendingTrades := []
    currentTime := 0
    nextPositionId := 1
    allCandles := []
    payoutPercent := 80
    events := []
    resolved := []
    obsLog := [] }

/-! ### Claim theorems -/

/-- **C10**: every event emitted on an `EventBus` reaches the persistence
function exactly once and in emission order — events emitted before
`setPersist` are buffered and flushed in order when `setPersist` is invoked,
events emitted afterwards are handed over immediately, and nothing is dropped
or duplicated (the buffer is empty afterwards). -/
theorem eventbus_delivers_each_event_once_in_order {E : Type} (es1 es2 : List E) :
    ((EventBus.new : EventBus E).runOps
        (es1.map BusOp.emit ++ [BusOp.wirePersist] ++ es2.map BusOp.emit)).persistedLog
      = es1 ++ es2 ∧
    ((EventBus.new : EventBus E).runOps
        (es1.map BusOp.emit ++ [BusOp.wirePersist] ++ es2.map BusOp.emit)).buffer
      = [] := by
  rw [runOps_append, runOps_append,
    runOps_emits_unwired es1 (EventBus.new : EventBus E) rfl]
  simp only [EventBus.runOps, EventBus.setPersistFn]
  rw [runOps_emits_wired es2 _ rfl]
  simp [EventBus.new]

/-- The closed position `resolveTradeAtPrice` produces for a trade settled
with `closeQuote` equal to `openQuote` (close reason `"tie"`, pnl `0`). -/
def tiePosition : Position :=
  { id := 1
    active_id := 1
    direction := .call
    invest := 20
    open_quote := 1
    open_time := 0
    expiration_time := 60
    status := .statusClosed
    close_quote := 1
    close_reason := "tie"
    close_time := 60
    pnl := 0 }

/-- **C4** (code bug): `EnvironmentState.onPositionChanged` classifies every
closed position whose `close_reason` is not `"win"` as a loss, so a
tie-closed position increments `lossCount` — the tie is counted as a loss
instead of leaving both `winCount` and `lossCount` unchanged. -/
theorem tie_position_increments_lossCount :
    (EnvironmentState.onPositionChanged {} tiePosition).closedCount = 1 ∧
    (EnvironmentState.onPositionChanged {} tiePosition).winCount = 0 ∧
    (EnvironmentState.onPositionChanged {} tiePosition).lossCount = 1 := by
  norm_num [EnvironmentState.onPositionChanged, tiePosition, maxRecentClosed]
  decide

/-- **C5**: a winning call trade with `invest = 20`, `profitPercent = 85`,
`openQuote = 1.1000` settled at `closeQuote = 1.1010` resolves as a win with
`pnl = invest * profitPercent / 100 = 17`, and settlement credits the wallet
`invest + pnl = 37` relative to its value immediately after placement. -/
theorem winning_call_trade_pays_profit_percent {σ : Type} (ag : Agent σ)
    (st : BTState σ) (trade : PendingTrade)
    (hdir : trade.direction = .call) (hinv : trade.invest = 20)
    (hpp : trade.profitPercent = 85) (hoq : trade.openQuote = 11 / 10) :
    BacktestEnvironment.tradeOutcome trade (1101 / 1000) = .win ∧
    BacktestEnvironment.tradePnl trade (1101 / 1000) = 17 ∧
    (BacktestEnvironment.resolveTradeAtPrice ag st trade (1101 / 1000)).wallet.balance
      = st.wallet.balance + 37 := by
  have htie : BacktestEnvironment.tradeIsTie trade (1101 / 1000) = false := by
    simp only [BacktestEnvironment.tradeIsTie, hoq, decide_eq_false_iff_not]
    norm_num
  have hwin : BacktestEnvironment.tradeIsWin trade (1101 / 1000) = true := by
    simp only [BacktestEnvironment.tradeIsWin, htie, Bool.not_false, Bool.true_and,
      Bool.or_eq_true, Bool.and_eq_true, decide_eq_true_eq]
    refine Or.inl ⟨hdir, ?_⟩
    rw [hoq]
    norm_num
  refine ⟨?_, ?_, ?_⟩
  · simp [BacktestEnvironment.tradeOutcome, htie, hwin]
  · simp [BacktestEnvironment.tradePnl, htie, hwin, hinv, hpp]
    norm_num
  · simp only [BacktestEnvironment.resolveTradeAtPrice, htie, hwin, Bool.false_eq_true,
      if_false, if_true, Wallet.credit]
    simp [hinv, hpp]
    norm_num

/-- Concrete trade for the C5 witness. -/
def trade20 : PendingTrade :=
  { id := 1
    direction := .call
    activeId := 1
    invest := 20
    openQuote := 11 / 10
    openTime := 0
    expirationTime := 60
    expirationSize := 60
    profitPercent := 85 }

/-- Witness for C5 at a concrete trade and state. -/
theorem winning_call_trade_pays_profit_percent_witness :
    BacktestEnvironment.tradeOutcome trade20 (1101 / 1000) = .win ∧
    BacktestEnvironment.tradePnl trade20 (1101 / 1000) = 17 ∧
    (BacktestEnvironment.resolveTradeAtPrice noopAgent blankState trade20
        (1101 / 1000)).wallet.balance = blankState.wallet.balance + 37 :=
  winning_call_trade_pays_profit_percent noopAgent blankState trade20 rfl rfl rfl rfl

/-- **C3**: a trade placed by `executeTrade` debits the stake at placement
and, when settled with `closeQuote` equal to `openQuote`, resolves as a tie
with pnl `0` and is refunded its stake, so the balance right after such a
settlement equals the balance right before placement. -/
theorem tie_settlement_restores_pre_trade_balance {σ : Type} (ag : Agent σ)
    (st st2 : BTState σ) (payload : TradePayload)
    (haff : st.wallet.canAfford payload.price) :
    (BacktestEnvironment.executeTrade st payload).1.pendingTrades
      = st.pendingTrades ++ [BacktestEnvironment.mkPendingTrade st payload] ∧
    (BacktestEnvironment.executeTrade st payload).1.wallet.balance
      = st.wallet.balance - payload.price ∧
    BacktestEnvironment.tradePnl (BacktestEnvironment.mkPendingTrade st payload)
      (BacktestEnvironment.mkPendingTrade st payload).openQuote = 0 ∧
    BacktestEnvironment.tradeOutcome (BacktestEnvironment.mkPendingTrade st payload)
      (BacktestEnvironment.mkPendingTrade st payload).openQuote = .tie ∧
    (BacktestEnvironment.resolveTradeAtPrice ag st2
        (BacktestEnvironment.mkPendingTrade st payload)
        (BacktestEnvironment.mkPendingTrade st payload).openQuote).wallet.balance
      = st2.wallet.balance + payload.price ∧
    (BacktestEnvironment.resolveTradeAtPrice ag
        (BacktestEnvironment.executeTrade st payload).1
        (BacktestEnvironment.mkPendingTrade st payload)
        (BacktestEnvironment.mkPendingTrade st payload).openQuote).wallet.balance
      = st.wallet.balance := by
  have hnn : ¬ ¬ st.wallet.canAfford payload.price := not_not_intro haff
  have htie : BacktestEnvironment.tradeIsTie
      (BacktestEnvironment.mkPendingTrade st payload)
      (BacktestEnvironment.mkPendingTrade st payload).openQuote = true := by
    simp [BacktestEnvironment.tradeIsTie]
  have hpend : (BacktestEnvironment.executeTrade st payload).1.pendingTrades
      = st.pendingTrades ++ [BacktestEnvironment.mkPendingTrade st payload] := by
    unfold BacktestEnvironment.executeTrade
    dsimp only
    rw [if_neg hnn]
  have hbal : (BacktestEnvironment.executeTrade st payload).1.wallet.balance
      = st.wallet.balance - payload.price := by
    unfold BacktestEnvironment.executeTrade
    dsimp only
    rw [if_neg hnn]
    rfl
  have hsettle : ∀ st3 : BTState σ,
      (BacktestEnvironment.resolveTradeAtPrice ag st3
          (BacktestEnvironment.mkPendingTrade st payload)
          (BacktestEnvironment.mkPendingTrade st payload).openQuote).wallet.balance
        = st3.wallet.balance + payload.price := by
    intro st3
    rw [BacktestEnvironment.resolveTradeAtPrice_wallet_tie _ _ _ _ htie]
    simp [Wallet.credit, BacktestEnvironment.mkPendingTrade]
  refine ⟨hpend, hbal, ?_, ?_, hsettle st2, ?_⟩
  · simp [BacktestEnvironment.tradePnl, htie]
  · simp [BacktestEnvironment.tradeOutcome, htie]
  · rw [hsettle _, hbal]
    ring

/-- Concrete payload for the C3 witness. -/
def payload10 : TradePayload :=
  { activeId := 1
    direction := .call
    price := 10
    expirationSize := 60
    profitPercent := some 85
    currentPrice := some 5 }

/-- Witness for C3 at a concrete affordable payload and state. -/
theorem tie_settlement_restores_pre_trade_balance_witness :
    (10 : ℚ) ≤ 1000 ∧
    (BacktestEnvironment.resolveTradeAtPrice noopAgent
        (BacktestEnvironment.executeTrade blankState payload10).1
        (BacktestEnvironment.mkPendingTrade blankState payload10)
        (BacktestEnvironment.mkPendingTrade blankState payload10).openQuote).wallet.balance
      = blankState.wallet.balance :=
  ⟨by norm_num,
    (tie_settlement_restores_pre_trade_balance noopAgent blankState blankState
      payload10 (by norm_num [blankState, payload10, Wallet.canAfford])).2.2.2.2.2⟩

/-- **C6**: `forceCloseAll` empties the pending list and settles every
previously pending trade exactly once, in order, each at its own instrument's
last known candle close, falling back to the supplied last price only when
the instrument has no candles at all (`forceClosePrice`). -/
theorem force_close_settles_each_pending_exactly_once {σ : Type} (ag : Agent σ)
    (st : BTState σ) (lastPrice : ℚ) :
    (BacktestEnvironment.forceCloseAll ag st lastPrice).pendingTrades = [] ∧
    (BacktestEnvironment.forceCloseAll ag st lastPrice).resolved
      = st.resolved ++ st.pendingTrades.map
          (fun t => BacktestEnvironment.resolutionOf t
            (BacktestEnvironment.forceClosePrice st.allCandles lastPrice t)) := by
  unfold BacktestEnvironment.forceCloseAll
  obtain ⟨-, -, h3, h4⟩ :=
    BacktestEnvironment.foldl_forceCloseStep_preserves ag lastPrice st.pendingTrades
      { st with pendingTrades := [] }
  exact ⟨h3, h4⟩

theorem runUpdateCallback_noop_sensorBuffers (st : BTState Unit) :
    (BacktestEnvironment.runUpdateCallback noopAgent st).sensorBuffers
      = st.sensorBuffers := by
  simp [BacktestEnvironment.runUpdateCallback, noopAgent]

/-- **C8**: a candle whose `from` equals the `from` of the buffer's last entry
replaces that entry, leaving the length unchanged; a candle with a new `from`
is appended (push-then-cap, plain append while below capacity).  Both the
live `SensorManager.pushCandle` and the backtest `feedCandle` buffer update
behave this way, and `feedCandle` stores exactly the updated buffer for the
candle's sensor id. -/
theorem candle_same_periodStart_replaces_last (cap : Nat)
    (buf : List Candle) (c : Candle) :
    (∀ last, buf.getLast? = some last → last.cfrom = c.cfrom →
      SensorManager.pushCandle cap buf c = buf.dropLast ++ [c] ∧
      (SensorManager.pushCandle cap buf c).length = buf.length ∧
      BacktestEnvironment.feedBuffer buf c = buf.dropLast ++ [c]) ∧
    ((∀ last, buf.getLast? = some last → last.cfrom ≠ c.cfrom) →
      SensorManager.pushCandle cap buf c = SensorManager.pushData cap buf c ∧
      BacktestEnvironment.feedBuffer buf c
        = SensorManager.pushData BacktestEnvironment.maxBufferSize buf c ∧
      (buf.length < cap → SensorManager.pushCandle cap buf c = buf ++ [c])) ∧
    (∀ (st : BTState Unit) (buf0 : List Candle),
      alGet st.sensorBuffers (SensorManager.candleId c.active_id c.size) = some buf0 →
      alGet (BacktestEnvironment.feedCandle noopAgent st c).sensorBuffers
          (SensorManager.candleId c.active_id c.size)
        = some (BacktestEnvironment.feedBuffer buf0 c)) := by
  refine ⟨?_, ?_, ?_⟩
  · intro last hlast heq
    have hne : buf ≠ [] := by
      intro hnil
      rw [hnil] at hlast
      exact Option.noConfusion hlast
    have hlen : (buf.dropLast ++ [c]).length = buf.length := by
      simp only [List.length_append, List.length_dropLast, List.length_singleton]
      have := List.length_pos.mpr hne
      omega
    constructor
    · unfold SensorManager.pushCandle
      rw [hlast]
      dsimp only
      rw [if_pos heq]
    constructor
    · unfold SensorManager.pushCandle
      rw [hlast]
      dsimp only
      rw [if_pos heq]
      exact hlen
    · unfold BacktestEnvironment.feedBuffer
      rw [hlast]
      dsimp only
      rw [if_pos heq]
  · intro hne
    have hpc : SensorManager.pushCandle cap buf c = SensorManager.pushData cap buf c := by
      unfold SensorManager.pushCandle SensorManager.pushData
      cases hlast : buf.getLast? with
      | none => rfl
      | some last =>
        dsimp only
        rw [if_neg (hne last hlast)]
    have hfb : BacktestEnvironment.feedBuffer buf c
        = SensorManager.pushData BacktestEnvironment.maxBufferSize buf c := by
      unfold BacktestEnvironment.feedBuffer SensorManager.pushData
      cases hlast : buf.getLast? with
      | none => rfl
      | some last =>
        dsimp only
        rw [if_neg (hne last hlast)]
    refine ⟨hpc, hfb, fun hlt => ?_⟩
    rw [hpc]
    unfold SensorManager.pushData
    dsimp only
    rw [if_neg (by simp; omega)]
  · intro st buf0 hbuf
    unfold BacktestEnvironment.feedCandle
    rw [hbuf]
    rw [runUpdateCallback_noop_sensorBuffers]
    exact alGet_alSet _ _ _

/-- Candle constants for the C8 witness. -/
def cA : Candle :=
  { cfrom := 100, cto := 160, copen := 1, close := 2, cmin := 1, cmax := 2,
    volume := 0, active_id := 1, size := 60 }

/-- Mid-period update of `cA` (same `from`). -/
def cB : Candle :=
  { cfrom := 100, cto := 160, copen := 1, close := 3, cmin := 1, cmax := 3,
    volume := 0, active_id := 1, size := 60 }

/-- A later candle (new `from`). -/
def cD : Candle :=
  { cfrom := 160, cto := 220, copen := 3, close := 4, cmin := 3, cmax := 4,
    volume := 0, active_id := 1, size := 60 }

/-- State with one candle buffer, for the C8 witness. -/
def w8state : BTState Unit :=
  { blankState with sensorBuffers := [(SensorManager.candleId 1 60, [cA])] }

/-- Witness for C8 at a one-candle buffer: `cB` (same `from` as `cA`)
replaces, `cD` (new `from`) appends, and `feedCandle` stores the updated
buffer. -/
theorem candle_same_periodStart_replaces_last_witness :
    (SensorManager.pushCandle 3 [cA] cB = [cA].dropLast ++ [cB] ∧
      (SensorManager.pushCandle 3 [cA] cB).length = [cA].length ∧
      BacktestEnvironment.feedBuffer [cA] cB = [cA].dropLast ++ [cB]) ∧
    ([cA].length < 3 → SensorManager.pushCandle 3 [cA] cD = [cA] ++ [cD]) ∧
    alGet (BacktestEnvironment.feedCandle noopAgent w8state cD).sensorBuffers
        (SensorManager.candleId cD.active_id cD.size)
      = some (BacktestEnvironment.feedBuffer [cA] cD) := by
  have hA : ([cA].getLast? = some cA) := rfl
  refine ⟨(candle_same_periodStart_replaces_last 3 [cA] cB).1 cA hA rfl,
    ((candle_same_periodStart_replaces_last 3 [cA] cD).2.1 ?_).2.2,
    (candle_same_periodStart_replaces_last 3 [cA] cD).2.2 w8state [cA] ?_⟩
  · intro last hlast
    rw [hA] at hlast
    cases hlast
    decide
  · simp [alGet, w8state, blankState, cD, List.find?]

/-- The `(type, error-or-not)` trace of the `action:executed` /
`action:failed` events inside an event list. -/
def eventMarkers (evs : List BTEvent) : List (ActionType × Option String) :=
  evs.filterMap (fun e =>
    match e with
    | .actionExecuted t => some (t, none)
    | .actionFailed t msg => some (t, some msg)
    | _ => none)

theorem executeTrade_events (st : BTState σ) (p : TradePayload) :
    ∃ δ, (BacktestEnvironment.executeTrade st p).1.events = st.events ++ δ ∧
      eventMarkers δ = [] := by
  unfold BacktestEnvironment.executeTrade
  dsimp only
  split
  · exact ⟨[], by simp, rfl⟩
  · exact ⟨_, rfl, rfl⟩

theorem executeSubscribe_events (st : BTState σ) (s : Sensor) :
    (BacktestEnvironment.executeSubscribe st s).events = st.events := by
  unfold BacktestEnvironment.executeSubscribe
  dsimp only
  split
  · rfl
  · split <;> split <;> rfl

theorem executeAction_events (st : BTState σ) (a : Action) :
    ∃ δ, (BacktestEnvironment.executeAction st a).1.events = st.events ++ δ ∧
      eventMarkers δ = [] := by
  cases a with
  | trade p => exact executeTrade_events st p
  | subscribe s => exact ⟨[], by rw [List.append_nil]; exact executeSubscribe_events st s, rfl⟩
  | unsubscribe sid =>
    refine ⟨[], ?_, rfl⟩
    rw [List.append_nil]
    rfl
  | query q =>
    refine ⟨[], ?_, rfl⟩
    rw [List.append_nil]
    rfl

theorem executeActionsFrom_spec (as : List Action) (i : Nat) (st : BTState σ) :
    ((BacktestEnvironment.executeActionsFrom st i as).2).map (fun r => r.actionIndex)
      = List.range' i as.length ∧
    ((BacktestEnvironment.executeActionsFrom st i as).2).map (fun r => r.type)
      = as.map Action.type ∧
    ∃ δ, (BacktestEnvironment.executeActionsFrom st i as).1.events = st.events ++ δ ∧
      eventMarkers δ
        = ((BacktestEnvironment.executeActionsFrom st i as).2).map
            (fun r => (r.type, r.error)) := by
  induction as generalizing i st with
  | nil => exact ⟨rfl, rfl, [], by simp [BacktestEnvironment.executeActionsFrom], rfl⟩
  | cons a rest ih =>
    obtain ⟨δ1, hδ1, hm1⟩ := executeAction_events st a
    simp only [BacktestEnvironment.executeActionsFrom]
    cases hr : (BacktestEnvironment.executeAction st a).2 with
    | none =>
      simp only [hr]
      obtain ⟨ih1, ih2, δ2, hδ2, hm2⟩ := ih (i + 1)
        { (BacktestEnvironment.executeAction st a).1 with
          events := (BacktestEnvironment.executeAction st a).1.events
            ++ [BTEvent.actionExecuted a.type] }
      refine ⟨?_, ?_, δ1 ++ [BTEvent.actionExecuted a.type] ++ δ2, ?_, ?_⟩
      · simp only [List.map_cons, ih1, List.length_cons]
        rw [List.range'_succ]
      · simp only [List.map_cons, ih2]
      · rw [hδ2]
        dsimp only
        rw [hδ1]
        simp
      · rw [eventMarkers, List.filterMap_append, List.filterMap_append,
          ← eventMarkers, ← eventMarkers, ← eventMarkers, hm1, hm2]
        simp [eventMarkers]
    | some msg =>
      simp only [hr]
      obtain ⟨ih1, ih2, δ2, hδ2, hm2⟩ := ih (i + 1)
        { (BacktestEnvironment.executeAction st a).1 with
          events := (BacktestEnvironment.executeAction st a).1.events
            ++ [BTEvent.actionFailed a.type msg] }
      refine ⟨?_, ?_, δ1 ++ [BTEvent.actionFailed a.type msg] ++ δ2, ?_, ?_⟩
      · simp only [List.map_cons, ih1, List.length_cons]
        rw [List.range'_succ]
      · simp only [List.map_cons, ih2]
      · rw [hδ2]
        dsimp only
        rw [hδ1]
        simp
      · rw [eventMarkers, List.filterMap_append, List.filterMap_append,
          ← eventMarkers, ← eventMarkers, ← eventMarkers, hm1, hm2]
        simp [eventMarkers]

/-- **C9**: `executeActions` tries the actions of a batch in order and
independently: it returns exactly one `{actionIndex, type, result | error}`
entry per input action — indices `0, 1, …`, types matching the inputs — and
the run's event log gains exactly one `action:executed` / `action:failed`
marker per action, matching each entry's error slot; a failed action (for
example an unaffordable trade) therefore never aborts the remaining
actions. -/
theorem executeActions_processes_each_action_independently {σ : Type}
    (st : BTState σ) (actions : List Action) :
    ((BacktestEnvironment.executeActions st actions).2).length = actions.length ∧
    ((BacktestEnvironment.executeActions st actions).2).map (fun r => r.actionIndex)
      = List.range actions.length ∧
    ((BacktestEnvironment.executeActions st actions).2).map (fun r => r.type)
      = actions.map Action.type ∧
    eventMarkers
        (((BacktestEnvironment.executeActions st actions).1).events.drop st.events.length)
      = ((BacktestEnvironment.executeActions st actions).2).map
          (fun r => (r.type, r.error)) := by
  obtain ⟨h1, h2, δ, hδ, hm⟩ := executeActionsFrom_spec actions 0 st
  refine ⟨?_, ?_, h2, ?_⟩
  · have := congrArg List.length h1
    simpa using this
  · rw [BacktestEnvironment.executeActions, h1, List.range_eq_range']
  · rw [BacktestEnvironment.executeActions, hδ]
    simp only [List.drop_left]
    exact hm

/-- Candle `i` of the 150-candle push sequence (sequentially distinct
`from` timestamps). -/
def w7candle (i : Nat) : Candle :=
  { cfrom := (i : Int), cto := (i : Int) + 60, copen := 1, close := 1, cmin := 1,
    cmax := 1, volume := 0, active_id := 1, size := 60 }

/-- 150 sequentially-distinct candles. -/
def w7items : List Candle := (List.range 150).map w7candle

/-- **C7** (code bug): in the live `TradingEnvironment`, the sensor buffers
are not bounded at all — the constructor passes the `AccountAPI` object where
`SensorManager` expects `maxBufferSize`, so the eviction comparison is always
false (`livePushCandle`) and feeding 150 sequentially-distinct candles leaves
a buffer of length 150, exceeding the intended capacity 100 with nothing
evicted. -/
theorem live_sensor_buffer_grows_without_bound :
    (w7items.foldl livePushCandle []).length = 150 ∧
    100 < (w7items.foldl livePushCandle []).length := by
  constructor <;> decide

/-- **C2**: the backtest replay is deterministic — for every dataset, agent
(with its configuration baked into the `Agent` value) and initial balance,
two runs that differ only in their wall-clock date stamp and random run-id
suffix (the run's only external inputs) produce the identical sequence of
placed-and-settled trades (order, directions, open and close quotes, pnl)
and the identical final wallet balance. -/
theorem backtest_replay_deterministic {σ : Type} (ag : Agent σ)
    (candles : List Candle) (initialBalance payoutPercent : ℚ)
    (dateStamp1 rand1 dateStamp2 rand2 : String) :
    (BacktestRunner.runBacktest ag candles initialBalance payoutPercent
        dateStamp1 rand1).map (fun res => (res.trades, res.finalBalance))
      = (BacktestRunner.runBacktest ag candles initialBalance payoutPercent
          dateStamp2 rand2).map (fun res => (res.trades, res.finalBalance)) := by
  unfold BacktestRunner.runBacktest
  rw [Option.map_map, Option.map_map]
  rfl

theorem stepCandle_obsLog_good (ag : Agent σ) (st : BTState σ) (c : Candle)
    (h : ∀ e ∈ st.obsLog, ∀ t ∈ e.2, e.1.cfrom < t.expirationTime) :
    ∀ e ∈ (BacktestEnvironment.stepCandle ag st c).obsLog, ∀ t ∈ e.2,
      e.1.cfrom < t.expirationTime := by
  intro e he t ht
  unfold BacktestEnvironment.stepCandle at he
  split at he
  · exact h e he t ht
  · rcases BacktestEnvironment.feedCandle_obsLog_mem ag _ c e he with hold | heq
    · rw [BacktestEnvironment.checkExpirations_obsLog] at hold
      exact h e hold t ht
    · subst heq
      dsimp only at ht
      rw [BacktestEnvironment.checkExpirations_pendingTrades] at ht
      simp only [List.mem_filter, Bool.not_eq_true', decide_eq_false_iff_not] at ht
      have h2 : ¬ t.expirationTime ≤ c.cfrom := ht.2
      show c.cfrom < t.expirationTime
      omega

theorem foldl_stepCandle_obsLog_good (ag : Agent σ) (cs : List Candle) (st : BTState σ)
    (h : ∀ e ∈ st.obsLog, ∀ t ∈ e.2, e.1.cfrom < t.expirationTime) :
    ∀ e ∈ (cs.foldl (BacktestEnvironment.stepCandle ag) st).obsLog, ∀ t ∈ e.2,
      e.1.cfrom < t.expirationTime := by
  induction cs generalizing st with
  | nil => exact h
  | cons c cs ih =>
    simp only [List.foldl_cons]
    exact ih _ (stepCandle_obsLog_good ag st c h)

theorem runPrelude_obsLog (ag : Agent σ) (first : Candle) (rest : List Candle)
    (b p : ℚ) : (BacktestRunner.runPrelude ag first rest b p).obsLog = [] := by
  unfold BacktestRunner.runPrelude BacktestEnvironment.executeActions
  show (BacktestEnvironment.executeActionsFrom _ 0 ag.initActions).1.obsLog = []
  rw [BacktestEnvironment.executeActionsFrom_obsLog]
  rfl

theorem runOnSorted_obsLog_good (ag : Agent σ) (first : Candle) (rest : List Candle)
    (b p : ℚ) :
    ∀ e ∈ (BacktestRunner.runOnSorted ag first rest b p).obsLog, ∀ t ∈ e.2,
      e.1.cfrom < t.expirationTime := by
  intro e he t ht
  unfold BacktestRunner.runOnSorted at he
  dsimp only at he
  rw [BacktestEnvironment.forceCloseAll_obsLog] at he
  refine foldl_stepCandle_obsLog_good ag (first :: rest) _ ?_ e he t ht
  rw [runPrelude_obsLog]
  intro e' he'
  exact absurd he' (List.not_mem_nil e')

/-- **C1**: in the backtest replay loop, the clock is advanced and all due
expirations are settled before a candle is fed to the sensors and observed —
hence in any completed run, every observation recorded in the (ghost)
observation log pairs its candle with pending trades whose expirations all
lie strictly after that candle's period start: the agent never observes a new
candle while a trade due at or before that candle is unsettled. -/
theorem agent_never_observes_candle_with_due_pending {σ : Type} (ag : Agent σ)
    (candles : List Candle) (initialBalance payoutPercent : ℚ) (st : BTState σ)
    (hrun : BacktestRunner.runBacktestState ag candles initialBalance payoutPercent
      = some st)
    (e : Candle × List PendingTrade) (he : e ∈ st.obsLog)
    (t : PendingTrade) (ht : t ∈ e.2) :
    e.1.cfrom < t.expirationTime := by
  unfold BacktestRunner.runBacktestState at hrun
  cases hs : sortCandles candles with
  | nil =>
    rw [hs] at hrun
    exact Option.noConfusion hrun
  | cons first rest =>
    rw [hs] at hrun
    have hst : BacktestRunner.runOnSorted ag first rest initialBalance payoutPercent
        = st := by injection hrun
    subst hst
    exact runOnSorted_obsLog_good ag first rest initialBalance payoutPercent e he t ht

/-- The candle sensor the demo agent subscribes to in its initialize hook. -/
def demoSensor : Sensor :=
  { id := SensorManager.candleId 1 60, type := .candle, active_id := 1, size := 60 }

/-- Demo agent for the C1 witness: subscribes and places one trade during
initialization, then only watches. -/
def demoAgent : Agent Unit :=
  { name := "demo"
    init := ()
    initActions := [.subscribe demoSensor, .trade payload10]
    onObservation := fun s _ => (s, [])
    onTradeResult := fun s _ => s }

/-- The pending trade the demo agent's initialize-time `payload10` trade
creates (placed at simulated time 100, expiring at 160). -/
def demoTrade : PendingTrade :=
  { id := 1, direction := .call, activeId := 1, invest := 10, openQuote := 5,
    openTime := 100, expirationTime := 160, expirationSize := 60,
    profitPercent := 85 }

/-- Final state of the demo run over the single candle `cA`. -/
def demoRunState : BTState Unit :=
  (BacktestRunner.runBacktestState demoAgent [cA] 1000 80).getD blankState

theorem demoRunState_obsLog : demoRunState.obsLog = [(cA, [demoTrade])] := by
  norm_num [demoRunState, BacktestRunner.runBacktestState, BacktestRunner.runOnSorted,
    BacktestRunner.runPrelude, BacktestRunner.initState, sortCandles, insertCandle,
    BacktestEnvironment.setCurrentTime, BacktestEnvironment.executeActions,
    BacktestEnvironment.executeActionsFrom, BacktestEnvironment.executeAction,
    BacktestEnvironment.executeSubscribe, BacktestEnvironment.executeTrade,
    BacktestEnvironment.mkPendingTrade, BacktestEnvironment.getLatestClose,
    BacktestEnvironment.stepCandle, BacktestEnvironment.checkExpirations,
    BacktestEnvironment.resolveTrade, BacktestEnvironment.resolveTradeAtPrice,
    BacktestEnvironment.resolutionOf, BacktestEnvironment.tradeIsTie,
    BacktestEnvironment.tradeIsWin, BacktestEnvironment.tradePnl,
    BacktestEnvironment.tradeOutcome, BacktestEnvironment.closeReasonStr,
    BacktestEnvironment.tradeToPosition, BacktestEnvironment.forceCloseAll,
    BacktestEnvironment.forceCloseStep, BacktestEnvironment.forceClosePrice,
    BacktestEnvironment.findLastCandleForAsset, BacktestEnvironment.feedCandle,
    BacktestEnvironment.feedBuffer, BacktestEnvironment.runUpdateCallback,
    BacktestEnvironment.getObservation, BacktestEnvironment.maxBufferSize,
    alGet, alSet, alDelete, SensorManager.candleId,
    EnvironmentState.onPositionChanged, replaceById, maxRecentClosed,
    Wallet.debit, Wallet.credit, Wallet.canAfford,
    demoAgent, demoSensor, payload10, cA, demoTrade, blankState,
    List.find?, List.filter]

/-- Witness for C1: the one-candle demo run completes, its observation log
contains the observation of `cA` with `demoTrade` still pending, and the
theorem yields `cA.cfrom < demoTrade.expirationTime`. -/
theorem agent_never_observes_candle_with_due_pending_witness :
    BacktestRunner.runBacktestState demoAgent [cA] 1000 80 = some demoRunState ∧
    (cA, [demoTrade]) ∈ demoRunState.obsLog ∧
    demoTrade ∈ [demoTrade] ∧
    cA.cfrom < demoTrade.expirationTime := by
  have hrun : BacktestRunner.runBacktestState demoAgent [cA] 1000 80
      = some demoRunState := rfl
  have hmem : (cA, [demoTrade]) ∈ demoRunState.obsLog := by
    rw [demoRunState_obsLog]
    exact List.mem_singleton.mpr rfl
  exact ⟨hrun, hmem, List.mem_singleton.mpr rfl,
    agent_never_observes_candle_with_due_pending demoAgent [cA] 1000 80 demoRunState
      hrun (cA, [demoTrade]) hmem demoTrade (List.mem_singleton.mpr rfl)⟩

end IQAgent
